import Mathlib

/-!
# MediolanoMarketplace — shallow embedding and verification

Shallow embedding of `src/onchain/ip_marketplace_bulk_order/src/lib.cairo`
(the `MediolanoMarketplace` Starknet contract) and proofs of the spec's
claims about it.

Modelling conventions:
* Cairo `u256` values, `felt252` values and `ContractAddress`es are `Nat`;
  `u256` arithmetic is checked (Cairo panics on overflow instead of
  wrapping), modelled with explicit `< 2^256` guards.
* Starknet storage `LegacyMap`s are total functions with the zero/false
  default of uninitialised storage.
* A panicking `assert!` reverts the whole entry-point call: entry points
  return `Except Err …`; an `Err` result means the caller observes the
  pre-call state unchanged (wrapped up in `committed`).
* Alongside the result, settlement returns the ordered trace of observable
  actions it performed before returning (external transfer invocations,
  event emissions, ownership checks and writes), so ordering claims can be
  stated.
-/

deriving instance DecidableEq for Except

namespace Mediolano

/-- The modulus of Cairo's `u256` integers. -/
def U256 : Nat := 2 ^ 256

/-- Checked `u256` addition: Cairo's `+` panics on overflow, it never wraps. -/
def checkedAdd (a b : Nat) : Option Nat :=
  if a + b < U256 then some (a + b) else none

/-- Checked `u256` multiplication: Cairo's `*` panics on overflow. -/
def checkedMul (a b : Nat) : Option Nat :=
  if a * b < U256 then some (a * b) else none

/-- Pointwise update of a storage map. -/
def updateF {α : Type} (f : Nat → α) (k : Nat) (v : α) : Nat → α :=
  fun x => if x = k then v else f x

/-- `struct DigitalAsset` (lib.cairo lines 40-46): one purchase-batch item. -/
structure DigitalAsset where
  seller : Nat
  asset_id : Nat
  price : Nat
  metadata_ipfs_hash : Nat
deriving DecidableEq, Repr

/-- The typed error kinds of §7 of the spec, naming the contract's `assert!`
panics: `SystemPaused` = 'Pausable: paused', `UnsupportedCurrency` =
'Invalid payment currency', `UnregisteredAsset` = 'Unregistered asset',
`ArithmeticOverflow` = u256 overflow panic, `TransferFailed` = revert inside
the external token, `InvalidAssetOwnership` = 'Invalid asset ownership',
`AssetAlreadyRegistered` = 'Asset already registered',
`InvalidCommissionRate` = 'Invalid commission rate', `Unauthorized` =
Ownable's 'Caller is not the owner'. -/
inductive Err where
  | SystemPaused
  | UnsupportedCurrency
  | UnregisteredAsset
  | ArithmeticOverflow
  | TransferFailed
  | InvalidAssetOwnership
  | AssetAlreadyRegistered
  | InvalidCommissionRate
  | Unauthorized
deriving DecidableEq, Repr

/-- Observable actions of a settlement, in execution order:
external `transferFrom` invocations (sender, recipient, amount),
`AssetPurchased` event emissions, and the ownership re-checks and
ownership-map writes of the commit pass. -/
inductive Action where
  | transferCall (sender recipient amount : Nat)
  | emitPurchased (asset_id buyer seller price : Nat)
  | ownCheck (asset_id : Nat)
  | ownWrite (asset_id newOwner : Nat)
deriving DecidableEq, Repr

/-- Modelled from the spec (§6): the external value-transfer capability, an
ERC20-style ledger for the chosen currency. `bal` is the balance map,
`allow o s` the allowance granted by owner `o` to spender `s`. The token
contract is an external collaborator (only its interface is in the
repository), so it is modelled at the spec's interface boundary:
`transferFrom` succeeds iff balance and allowance suffice. -/
structure Ledger where
  bal : Nat → Nat
  allow : Nat → Nat → Nat

/-- Modelled from the spec (§6): `transferFrom(sender, recipient, amount)`
called by `spender`; fails (reverting the token call) on insufficient
balance or allowance, otherwise debits the sender and allowance and credits
the recipient. -/
def Ledger.transferFrom (l : Ledger) (spender sender recipient amount : Nat) :
    Option Ledger :=
  if amount ≤ l.allow sender spender ∧ amount ≤ l.bal sender then
    let allow1 : Nat → Nat → Nat := fun o s =>
      if o = sender ∧ s = spender then l.allow sender spender - amount
      else l.allow o s
    let bal1 := updateF l.bal sender (l.bal sender - amount)
    let bal2 := updateF bal1 recipient (bal1 recipient + amount)
    some { bal := bal2, allow := allow1 }
  else none

/-- `struct Storage` (lib.cairo lines 48-60) plus the storage of the two
OpenZeppelin components. Note that `owner` (the commission recipient read by
`process_payments`) is a field of this contract's own storage, distinct from
`ownable_owner`, the OwnableComponent's admin principal. -/
structure ContractState where
  paused : Bool
  ownable_owner : Nat
  owner : Nat
  commission_rate : Nat
  supported_currencies : Nat → Bool
  asset_metadata : Nat → Nat
  asset_ownership : Nat → Nat
  asset_registered : Nat → Bool

/-- Modelled from the spec (§6): OpenZeppelin `Ownable.assert_only_owner` —
fails unless the caller is the (non-zero) component owner. -/
def assert_only_owner (s : ContractState) (caller : Nat) : Except Err Unit :=
  if caller ≠ 0 ∧ caller = s.ownable_owner then .ok () else .error .Unauthorized

/-- `calculate_total_price` (lib.cairo lines 151-159): for each item in
order, assert the asset is registered, then accumulate its price with
checked `u256` addition. The Cairo loop's mutable `total` is rendered as the
accumulator argument (the public call starts it at `0`). Reads only — the
Cairo function takes `self: @ContractState`, a read-only snapshot. -/
def calculate_total_price (s : ContractState) :
    List DigitalAsset → Nat → Except Err Nat
  | [], total => .ok total
  | a :: rest, total =>
    if s.asset_registered a.asset_id then
      match checkedAdd total a.price with
      | some total1 => calculate_total_price s rest total1
      | none => .error .ArithmeticOverflow
    else .error .UnregisteredAsset

/-- The per-item half of `process_payments` (lib.cairo lines 177-191): for
each item in order, invoke `transferFrom(buyer, asset.seller, asset.price)`
on the currency token, then emit `AssetPurchased`. `mkt` is the marketplace
contract's own address (the token-side spender). A failed transfer is still
an invocation, so it is recorded in the trace before the error. -/
def seller_payments (mkt buyer : Nat) :
    Ledger → List DigitalAsset → Except Err Ledger × List Action
  | l, [] => (.ok l, [])
  | l, a :: rest =>
    match l.transferFrom mkt buyer a.seller a.price with
    | none => (.error .TransferFailed, [.transferCall buyer a.seller a.price])
    | some l1 =>
      let r := seller_payments mkt buyer l1 rest
      (r.1, .transferCall buyer a.seller a.price ::
            .emitPurchased a.asset_id buyer a.seller a.price :: r.2)

/-- `process_payments` (lib.cairo lines 161-192): read the commission rate,
compute `commission = total_price * commission_rate / 10000` (checked `u256`
multiplication, floor division), transfer the commission from the buyer to
the `owner` storage field's address, then pay each seller in order. -/
def process_payments (s : ContractState) (mkt : Nat) (l : Ledger)
    (assets : List DigitalAsset) (total_price : Nat) (buyer : Nat) :
    Except Err Ledger × List Action :=
  let commission_rate := s.commission_rate
  match checkedMul total_price commission_rate with
  | none => (.error .ArithmeticOverflow, [])
  | some prod =>
    let commission := prod / 10000
    let mediolano_address := s.owner
    match l.transferFrom mkt buyer mediolano_address commission with
    | none => (.error .TransferFailed,
               [.transferCall buyer mediolano_address commission])
    | some l1 =>
      let r := seller_payments mkt buyer l1 assets
      (r.1, .transferCall buyer mediolano_address commission :: r.2)

/-- `transfer_asset_ownership` (lib.cairo lines 194-205): for each item in
order, read the recorded current owner, assert it equals the item's declared
seller, then write the buyer as the new owner. The ownership map is threaded
through, so a later item sees earlier writes. -/
def transfer_asset_ownership (buyer : Nat) :
    (Nat → Nat) → List DigitalAsset → Except Err (Nat → Nat) × List Action
  | own, [] => (.ok own, [])
  | own, a :: rest =>
    let current_owner := own a.asset_id
    if current_owner = a.seller then
      let own1 := updateF own a.asset_id buyer
      let r := transfer_asset_ownership buyer own1 rest
      (r.1, .ownCheck a.asset_id :: .ownWrite a.asset_id buyer :: r.2)
    else (.error .InvalidAssetOwnership, [.ownCheck a.asset_id])

/-- `purchase_multiple_assets` (lib.cairo lines 90-101): pause gate,
currency gate, validation-and-pricing pass, payment pass, ownership commit
pass. `buyer` is `get_caller_address()`; `mkt` is the contract's own
address. On error the caller observes no state change (Starknet reverts the
whole call); the second component is the action trace executed up to the
point of return. -/
def purchase_multiple_assets (s : ContractState) (l : Ledger)
    (mkt buyer : Nat) (assets : List DigitalAsset) (payment_currency : Nat) :
    Except Err (ContractState × Ledger) × List Action :=
  if s.paused then (.error .SystemPaused, [])
  else if s.supported_currencies payment_currency = false then
    (.error .UnsupportedCurrency, [])
  else
    match calculate_total_price s assets 0 with
    | .error e => (.error e, [])
    | .ok total_price =>
      match process_payments s mkt l assets total_price buyer with
      | (.error e, tr) => (.error e, tr)
      | (.ok l1, tr) =>
        match transfer_asset_ownership buyer s.asset_ownership assets with
        | (.error e, tr2) => (.error e, tr ++ tr2)
        | (.ok own1, tr2) =>
          (.ok ({ s with asset_ownership := own1 }, l1), tr ++ tr2)

/-- `register_digital_asset` (lib.cairo lines 103-118): owner-only; fails if
the id is already registered; otherwise records metadata, initial owner =
`seller`, and sets the registered flag. -/
def register_digital_asset (s : ContractState)
    (caller asset_id seller price metadata_hash : Nat) :
    Except Err ContractState :=
  match assert_only_owner s caller with
  | .error e => .error e
  | .ok _ =>
    if s.asset_registered asset_id then .error .AssetAlreadyRegistered
    else .ok { s with
      asset_metadata := updateF s.asset_metadata asset_id metadata_hash,
      asset_ownership := updateF s.asset_ownership asset_id seller,
      asset_registered := fun i => if i = asset_id then true
                                   else s.asset_registered i }

/-- `set_commission_rate` (lib.cairo lines 120-124): owner-only; asserts
`rate < 10000` ('Invalid commission rate'), then stores the rate. -/
def set_commission_rate (s : ContractState) (caller rate : Nat) :
    Except Err ContractState :=
  match assert_only_owner s caller with
  | .error e => .error e
  | .ok _ =>
    if rate < 10000 then .ok { s with commission_rate := rate }
    else .error .InvalidCommissionRate

/-- `add_supported_currency` (lib.cairo lines 126-129). -/
def add_supported_currency (s : ContractState) (caller currency : Nat) :
    Except Err ContractState :=
  match assert_only_owner s caller with
  | .error e => .error e
  | .ok _ => .ok { s with
      supported_currencies := fun c => if c = currency then true
                                       else s.supported_currencies c }

/-- `remove_supported_currency` (lib.cairo lines 131-134). -/
def remove_supported_currency (s : ContractState) (caller currency : Nat) :
    Except Err ContractState :=
  match assert_only_owner s caller with
  | .error e => .error e
  | .ok _ => .ok { s with
      supported_currencies := fun c => if c = currency then false
                                       else s.supported_currencies c }

/-- `get_asset_metadata` (lib.cairo lines 136-138). -/
def get_asset_metadata (s : ContractState) (asset_id : Nat) : Nat :=
  s.asset_metadata asset_id

/-- `get_commission_rate` (lib.cairo lines 140-142). -/
def get_commission_rate (s : ContractState) : Nat :=
  s.commission_rate

/-- `is_currency_supported` (lib.cairo lines 144-146). -/
def is_currency_supported (s : ContractState) (currency : Nat) : Bool :=
  s.supported_currencies currency

/-! ## Operation-level machinery: public calls, revert semantics, reachability -/

/-- One public (externally callable) operation of the contract, with its
arguments. The contract exposes no pause/unpause and no Ownable
entry points (the components' external impls are not embedded with
`#[abi(embed_v0)]`), and it has no constructor. -/
inductive Op where
  | purchaseOp (mkt buyer : Nat) (assets : List DigitalAsset) (currency : Nat)
  | registerOp (caller asset_id seller price metadata_hash : Nat)
  | setRateOp (caller rate : Nat)
  | addCurrencyOp (caller currency : Nat)
  | removeCurrencyOp (caller currency : Nat)

/-- The committed (caller-visible) outcome of one public call under
Starknet's revert semantics: the new state on success, the untouched
pre-call state on any error. -/
def applyOp (sl : ContractState × Ledger) : Op → ContractState × Ledger
  | .purchaseOp mkt buyer assets currency =>
    match (purchase_multiple_assets sl.1 sl.2 mkt buyer assets currency).1 with
    | .ok p => p
    | .error _ => sl
  | .registerOp caller asset_id seller price metadata_hash =>
    match register_digital_asset sl.1 caller asset_id seller price
        metadata_hash with
    | .ok s1 => (s1, sl.2)
    | .error _ => sl
  | .setRateOp caller rate =>
    match set_commission_rate sl.1 caller rate with
    | .ok s1 => (s1, sl.2)
    | .error _ => sl
  | .addCurrencyOp caller currency =>
    match add_supported_currency sl.1 caller currency with
    | .ok s1 => (s1, sl.2)
    | .error _ => sl
  | .removeCurrencyOp caller currency =>
    match remove_supported_currency sl.1 caller currency with
    | .ok s1 => (s1, sl.2)
    | .error _ => sl

/-- The deployment state: the contract declares no `#[constructor]`, so
every storage slot holds Starknet's zero default. -/
def initState : ContractState :=
  { paused := false
    ownable_owner := 0
    owner := 0
    commission_rate := 0
    supported_currencies := fun _ => false
    asset_metadata := fun _ => 0
    asset_ownership := fun _ => 0
    asset_registered := fun _ => false }

/-- The contract state (paired with the currency ledger) reached from
deployment by a sequence of public calls. -/
def reach (l0 : Ledger) (ops : List Op) : ContractState × Ledger :=
  ops.foldl applyOp (initState, l0)

/-- The committed view of a settlement result: on success the returned
state and ledger, on error the pre-call pair (revert semantics). -/
def committed (s : ContractState) (l : Ledger)
    (r : Except Err (ContractState × Ledger) × List Action) :
    ContractState × Ledger :=
  match r.1 with
  | .ok p => p
  | .error _ => (s, l)

/-- Whether an `Except` result is a success, as a decidable Bool. -/
def exceptOk {α : Type} : Except Err α → Bool
  | .ok _ => true
  | .error _ => false

/-! ## Trace and failure predicates used to state the claims -/

/-- Sum of the declared prices of a batch (over `Nat`, no truncation). -/
def sumPrices (assets : List DigitalAsset) : Nat :=
  (assets.map DigitalAsset.price).sum

/-- The value-transfer invocations of a trace, in order:
(sender, recipient, amount) triples. -/
def transfersOf : List Action → List (Nat × Nat × Nat)
  | [] => []
  | .transferCall a b c :: rest => (a, b, c) :: transfersOf rest
  | _ :: rest => transfersOf rest

/-- The actions the payment pass performs for one item, in order. -/
def paymentActions (buyer : Nat) (a : DigitalAsset) : List Action :=
  [.transferCall buyer a.seller a.price,
   .emitPurchased a.asset_id buyer a.seller a.price]

/-- The actions the ownership commit pass performs for one item, in order. -/
def ownershipActions (buyer : Nat) (a : DigitalAsset) : List Action :=
  [.ownCheck a.asset_id, .ownWrite a.asset_id buyer]

/-- Concatenation of per-item action blocks over a batch, in batch order. -/
def perItemTrace (f : DigitalAsset → List Action) :
    List DigitalAsset → List Action
  | [] => []
  | a :: rest => f a ++ perItemTrace f rest

/-- Mirrors the recursion of `transfer_asset_ownership`: `true` iff some
item's recorded current owner (after the pass's earlier writes) differs from
its declared seller — i.e. the commit pass hits a stale-ownership mismatch. -/
def staleExists (own : Nat → Nat) (buyer : Nat) : List DigitalAsset → Bool
  | [] => false
  | a :: rest =>
    if own a.asset_id = a.seller then
      staleExists (updateF own a.asset_id buyer) buyer rest
    else true

/-- `true` iff every `emitPurchased` for asset `id` in the trace occurs
after some earlier `ownWrite` for the same asset (the ordering claim C3
makes). The second argument records whether a write for `id` was already
seen. -/
def emitAfterWriteB (id : Nat) : List Action → Bool → Bool
  | [], _ => true
  | .emitPurchased a _ _ _ :: rest, seenWrite =>
    if a = id then seenWrite && emitAfterWriteB id rest seenWrite
    else emitAfterWriteB id rest seenWrite
  | .ownWrite a _ :: rest, seenWrite =>
    emitAfterWriteB id rest (seenWrite || (a == id))
  | _ :: rest, seenWrite => emitAfterWriteB id rest seenWrite

/-! ## Concrete fixtures used by witnesses and counterexamples -/

/-- A configured state: admin `3`, commission recipient `4`, rate 500 bp,
currency `9` supported, assets `1,2,3` registered to owners `11,12,13`. -/
def cS : ContractState :=
  { paused := false
    ownable_owner := 3
    owner := 4
    commission_rate := 500
    supported_currencies := fun c => c = 9
    asset_metadata := fun _ => 0
    asset_ownership := fun i =>
      if i = 1 then 11 else if i = 2 then 12 else if i = 3 then 13 else 0
    asset_registered := fun i => i = 1 || i = 2 || i = 3 }

/-- Buyer `7` holds 1000 tokens and has approved the marketplace (`2`). -/
def cL : Ledger :=
  { bal := fun a => if a = 7 then 1000 else 0
    allow := fun o s => if o = 7 ∧ s = 2 then 1000 else 0 }

/-- Buyer `7` holds only 130 tokens: enough for the 25 commission and the
first item, not for the second. -/
def cLlow : Ledger :=
  { bal := fun a => if a = 7 then 130 else 0
    allow := fun o s => if o = 7 ∧ s = 2 then 1000 else 0 }

/-- The spec's pricing batch: prices [100, 250, 150], declared sellers
matching the recorded owners. -/
def cBatch : List DigitalAsset := [⟨11, 1, 100, 0⟩, ⟨12, 2, 250, 0⟩, ⟨13, 3, 150, 0⟩]

/-- A minimal state: asset `1` registered to owner `5`, currency `9`
supported, commission rate (and hence commission) zero. -/
def dS : ContractState :=
  { paused := false
    ownable_owner := 3
    owner := 0
    commission_rate := 0
    supported_currencies := fun c => c = 9
    asset_metadata := fun _ => 0
    asset_ownership := fun i => if i = 1 then 5 else 0
    asset_registered := fun i => i = 1 }

/-- Buyer `7` holds 100 tokens, marketplace (`2`) approved. -/
def dL : Ledger :=
  { bal := fun a => if a = 7 then 100 else 0
    allow := fun o s => if o = 7 ∧ s = 2 then 100 else 0 }

/-- A duplicate-id batch: asset `1` sold once by its recorded owner `5` and
once by the buyer `7` itself. The settlement succeeds, yet the second
payment's recipient is not the registry-recorded owner at payment time. -/
def dBatch : List DigitalAsset := [⟨5, 1, 10, 0⟩, ⟨7, 1, 20, 0⟩]

/-- A single-item batch sold by its recorded owner `5`. -/
def eBatch : List DigitalAsset := [⟨5, 1, 10, 0⟩]

/-- `cS` with asset `1`'s recorded owner changed to `99`, so `cBatch`'s
first item (declared seller `11`) is stale at commit time. -/
def fS : ContractState :=
  { cS with asset_ownership := fun i =>
      if i = 1 then 99 else if i = 2 then 12 else if i = 3 then 13 else 0 }

/-- `cS` paused. -/
def cSpaused : ContractState := { cS with paused := true }

/-- A batch whose only item refers to the unregistered asset `42`. -/
def gBatch : List DigitalAsset := [⟨5, 42, 10, 0⟩]

/-- Two registered items whose prices sum to exactly `2^256`: the pricing
pass must fail `ArithmeticOverflow` rather than wrap to 0. -/
def oBatch : List DigitalAsset :=
  [⟨11, 1, 2 ^ 255, 0⟩, ⟨12, 2, 2 ^ 255, 0⟩]

/-- `cS` after the owner registers asset `50` (seller 21, metadata 77). -/
def cS50 : ContractState :=
  { cS with
    asset_metadata := updateF cS.asset_metadata 50 77,
    asset_ownership := updateF cS.asset_ownership 50 21,
    asset_registered := fun i => if i = 50 then true
                                 else cS.asset_registered i }

/-! ## Helper lemmas -/

theorem checkedAdd_some {a b v : Nat} (h : checkedAdd a b = some v) :
    v = a + b ∧ a + b < U256 := by
  unfold checkedAdd at h
  split at h
  · exact ⟨(Option.some_inj.mp h).symm, by assumption⟩
  · cases h

theorem checkedMul_some {a b v : Nat} (h : checkedMul a b = some v) :
    v = a * b ∧ a * b < U256 := by
  unfold checkedMul at h
  split at h
  · exact ⟨(Option.some_inj.mp h).symm, by assumption⟩
  · cases h

theorem checkedMul_of_lt {a b : Nat} (h : a * b < U256) :
    checkedMul a b = some (a * b) := by
  unfold checkedMul
  rw [if_pos h]

@[simp] theorem sumPrices_nil : sumPrices [] = 0 := rfl

@[simp] theorem sumPrices_cons (a : DigitalAsset) (rest : List DigitalAsset) :
    sumPrices (a :: rest) = a.price + sumPrices rest := by
  simp [sumPrices]

/-- A successful pricing pass returns the exact `Nat` sum of the declared
prices (on top of the accumulator) and implies every item was registered. -/
theorem calc_ok (s : ContractState) (assets : List DigitalAsset) :
    ∀ acc v : Nat, calculate_total_price s assets acc = .ok v →
      v = acc + sumPrices assets ∧
        ∀ a ∈ assets, s.asset_registered a.asset_id = true := by
  induction assets with
  | nil =>
    intro acc v h
    simp only [calculate_total_price, Except.ok.injEq] at h
    simp [h.symm]
  | cons a rest ih =>
    intro acc v h
    simp only [calculate_total_price] at h
    cases hr : s.asset_registered a.asset_id with
    | false => rw [hr] at h; simp at h
    | true =>
      rw [hr] at h
      simp only [if_true] at h
      cases hc : checkedAdd acc a.price with
      | none => rw [hc] at h; cases h
      | some t1 =>
        rw [hc] at h
        obtain ⟨ht1, _⟩ := checkedAdd_some hc
        obtain ⟨hv, hrest⟩ := ih t1 v h
        refine ⟨by simp only [sumPrices_cons]; omega, ?_⟩
        intro b hb
        rcases List.mem_cons.mp hb with hb | hb
        · rw [hb]; exact hr
        · exact hrest b hb

/-- With every item registered, the pricing pass fails `ArithmeticOverflow`
exactly when the true sum leaves the `u256` range. -/
theorem calc_overflow (s : ContractState) (assets : List DigitalAsset) :
    ∀ acc : Nat, (∀ a ∈ assets, s.asset_registered a.asset_id = true) →
      acc < U256 → U256 ≤ acc + sumPrices assets →
      calculate_total_price s assets acc = .error .ArithmeticOverflow := by
  induction assets with
  | nil =>
    intro acc _ hacc hsum
    exfalso
    simp only [sumPrices_nil, Nat.add_zero] at hsum
    omega
  | cons a rest ih =>
    intro acc hreg hacc hsum
    simp only [calculate_total_price]
    rw [hreg a (List.mem_cons_self a rest)]
    simp only [if_true]
    cases hc : checkedAdd acc a.price with
    | none => rfl
    | some t1 =>
      obtain ⟨ht1, hlt⟩ := checkedAdd_some hc
      refine ih t1 (fun b hb => hreg b (List.mem_cons_of_mem a hb))
        (by omega) ?_
      simp only [sumPrices_cons] at hsum
      omega

/-- A successful seller-payment loop performs, per item in batch order, the
transfer to that item's declared seller followed by the `AssetPurchased`
emission. -/
theorem seller_payments_ok_trace (mkt buyer : Nat)
    (assets : List DigitalAsset) :
    ∀ l : Ledger, exceptOk (seller_payments mkt buyer l assets).1 = true →
      (seller_payments mkt buyer l assets).2 =
        perItemTrace (paymentActions buyer) assets := by
  induction assets with
  | nil => intro l _; rfl
  | cons a rest ih =>
    intro l h
    simp only [seller_payments] at h ⊢
    cases hc : l.transferFrom mkt buyer a.seller a.price with
    | none => rw [hc] at h; simp [exceptOk] at h
    | some l1 =>
      simp only [hc] at h ⊢
      simp only [perItemTrace, paymentActions, List.cons_append,
        List.nil_append, List.cons.injEq, true_and]
      exact ih l1 h

/-- A successful ownership commit pass performs, per item in batch order,
the re-check followed by the owner write. -/
theorem own_ok_trace (buyer : Nat) (assets : List DigitalAsset) :
    ∀ own : Nat → Nat,
      exceptOk (transfer_asset_ownership buyer own assets).1 = true →
      (transfer_asset_ownership buyer own assets).2 =
        perItemTrace (ownershipActions buyer) assets := by
  induction assets with
  | nil => intro own _; rfl
  | cons a rest ih =>
    intro own h
    simp only [transfer_asset_ownership] at h ⊢
    cases hc : decide (own a.asset_id = a.seller) with
    | false =>
      rw [if_neg (of_decide_eq_false hc)] at h
      simp [exceptOk] at h
    | true =>
      rw [if_pos (of_decide_eq_true hc)] at h ⊢
      simp only [ownershipActions, perItemTrace, List.cons_append,
        List.nil_append, List.cons.injEq, true_and]
      exact ih _ h

/-- The ownership commit pass fails (with `InvalidAssetOwnership`) exactly
when `staleExists` holds of the pre-pass ownership map. -/
theorem own_stale_iff (buyer : Nat) (assets : List DigitalAsset) :
    ∀ own : Nat → Nat,
      (transfer_asset_ownership buyer own assets).1 =
          .error .InvalidAssetOwnership ↔
        staleExists own buyer assets = true := by
  induction assets with
  | nil =>
    intro own
    simp [transfer_asset_ownership, staleExists]
  | cons a rest ih =>
    intro own
    simp only [transfer_asset_ownership, staleExists]
    by_cases hc : own a.asset_id = a.seller
    · rw [if_pos hc, if_pos hc]
      exact ih (updateF own a.asset_id buyer)
    · rw [if_neg hc, if_neg hc]
      exact ⟨fun _ => rfl, fun _ => rfl⟩

/-- A successful payment pass performs the commission transfer to the
`owner` storage field's address first, then the per-item payments. -/
theorem process_payments_ok_trace (s : ContractState) (mkt : Nat)
    (l : Ledger) (assets : List DigitalAsset) (total buyer : Nat)
    (h : exceptOk (process_payments s mkt l assets total buyer).1 = true) :
    (process_payments s mkt l assets total buyer).2 =
      .transferCall buyer s.owner (total * s.commission_rate / 10000) ::
        perItemTrace (paymentActions buyer) assets := by
  simp only [process_payments] at h ⊢
  cases hm : checkedMul total s.commission_rate with
  | none => simp only [hm] at h; simp [exceptOk] at h
  | some prod =>
    simp only [hm] at h ⊢
    obtain ⟨hp, _⟩ := checkedMul_some hm
    subst hp
    cases ht : l.transferFrom mkt buyer s.owner
        (total * s.commission_rate / 10000) with
    | none => simp only [ht] at h; simp [exceptOk] at h
    | some l1 =>
      simp only [ht] at h ⊢
      simp only [List.cons.injEq, true_and]
      exact seller_payments_ok_trace mkt buyer assets l1 h

/-- Master characterization of a successful settlement: both gates passed,
validation returned the exact price sum, the payment pass succeeded, no
stale ownership was found, and the action trace is the commission transfer,
then the per-item payment blocks, then the per-item commit blocks. -/
theorem purchase_ok_spec (s : ContractState) (l : Ledger) (mkt buyer : Nat)
    (assets : List DigitalAsset) (currency : Nat)
    (h : exceptOk
      (purchase_multiple_assets s l mkt buyer assets currency).1 = true) :
    s.paused = false ∧
    s.supported_currencies currency = true ∧
    calculate_total_price s assets 0 = .ok (sumPrices assets) ∧
    exceptOk (process_payments s mkt l assets (sumPrices assets) buyer).1 =
      true ∧
    staleExists s.asset_ownership buyer assets = false ∧
    (purchase_multiple_assets s l mkt buyer assets currency).2 =
      .transferCall buyer s.owner
          (sumPrices assets * s.commission_rate / 10000) ::
        (perItemTrace (paymentActions buyer) assets ++
          perItemTrace (ownershipActions buyer) assets) := by
  simp only [purchase_multiple_assets] at h
  cases hpz : s.paused with
  | true => simp [hpz, exceptOk] at h
  | false =>
    simp only [hpz, Bool.false_eq_true, if_false] at h
    cases hsc : s.supported_currencies currency with
    | false => simp [hsc, exceptOk] at h
    | true =>
      simp only [hsc, Bool.true_eq_false, if_false] at h
      cases hcalc : calculate_total_price s assets 0 with
      | error e => simp [hcalc, exceptOk] at h
      | ok total =>
        obtain ⟨hT, _⟩ := calc_ok s assets 0 total hcalc
        rw [Nat.zero_add] at hT
        subst hT
        simp only [hcalc] at h
        cases hpp : process_payments s mkt l assets (sumPrices assets) buyer
            with
        | mk pfst psnd =>
          cases pfst with
          | error e => simp [hpp, exceptOk] at h
          | ok l1 =>
            simp only [hpp] at h
            cases hto : transfer_asset_ownership buyer s.asset_ownership
                assets with
            | mk tfst tsnd =>
              cases tfst with
              | error e => simp [hto, exceptOk] at h
              | ok own1 =>
                have hpok : exceptOk
                    (process_payments s mkt l assets (sumPrices assets)
                      buyer).1 = true := by
                  rw [hpp]; rfl
                have hps : psnd =
                    Action.transferCall buyer s.owner
                        (sumPrices assets * s.commission_rate / 10000) ::
                      perItemTrace (paymentActions buyer) assets := by
                  have := process_payments_ok_trace s mkt l assets
                    (sumPrices assets) buyer hpok
                  rw [hpp] at this
                  exact this
                have htok : exceptOk
                    (transfer_asset_ownership buyer s.asset_ownership
                      assets).1 = true := by
                  rw [hto]; rfl
                have hts : tsnd =
                    perItemTrace (ownershipActions buyer) assets := by
                  have := own_ok_trace buyer assets s.asset_ownership htok
                  rw [hto] at this
                  exact this
                have hst : staleExists s.asset_ownership buyer assets =
                    false := by
                  cases hst : staleExists s.asset_ownership buyer assets with
                  | false => rfl
                  | true =>
                    have := (own_stale_iff buyer assets
                      s.asset_ownership).mpr hst
                    rw [hto] at this
                    cases this
                refine ⟨rfl, rfl, rfl, rfl, hst, ?_⟩
                simp only [purchase_multiple_assets, hpz,
                  Bool.false_eq_true, if_false, hsc, Bool.true_eq_false,
                  hcalc, hpp, hto]
                rw [hps, hts]
                simp [List.cons_append]

theorem transfersOf_append (xs ys : List Action) :
    transfersOf (xs ++ ys) = transfersOf xs ++ transfersOf ys := by
  induction xs with
  | nil => rfl
  | cons x rest ih =>
    cases x <;> simp [transfersOf, ih]

/-- The payment blocks contribute exactly one transfer per item: buyer to
declared seller, of the declared price. -/
theorem transfersOf_pay (buyer : Nat) (assets : List DigitalAsset) :
    transfersOf (perItemTrace (paymentActions buyer) assets) =
      assets.map (fun a => (buyer, a.seller, a.price)) := by
  induction assets with
  | nil => rfl
  | cons a rest ih =>
    simp [perItemTrace, paymentActions, transfersOf, transfersOf_append, ih]

/-- The ownership commit blocks contribute no transfers. -/
theorem transfersOf_own (buyer : Nat) (assets : List DigitalAsset) :
    transfersOf (perItemTrace (ownershipActions buyer) assets) = [] := by
  induction assets with
  | nil => rfl
  | cons a rest ih =>
    simp [perItemTrace, ownershipActions, transfersOf, transfersOf_append, ih]

/-- A successful settlement only rewrites the ownership map: every other
storage field of the resulting state is the pre-call one. -/
theorem purchase_ok_state (s : ContractState) (l : Ledger) (mkt buyer : Nat)
    (assets : List DigitalAsset) (currency : Nat)
    (p : ContractState × Ledger)
    (h : (purchase_multiple_assets s l mkt buyer assets currency).1 =
      .ok p) :
    ∃ own1, p.1 = { s with asset_ownership := own1 } := by
  simp only [purchase_multiple_assets] at h
  cases hpz : s.paused with
  | true => rw [hpz] at h; simp at h
  | false =>
    rw [hpz] at h
    simp only [Bool.false_eq_true, if_false] at h
    cases hsc : s.supported_currencies currency with
    | false => rw [hsc] at h; simp at h
    | true =>
      rw [hsc] at h
      simp only [Bool.true_eq_false, if_false] at h
      cases hcalc : calculate_total_price s assets 0 with
      | error e => simp [hcalc] at h
      | ok total =>
        simp only [hcalc] at h
        cases hpp : process_payments s mkt l assets total buyer with
        | mk pfst psnd =>
          cases pfst with
          | error e => simp [hpp] at h
          | ok l1 =>
            simp only [hpp] at h
            cases hto : transfer_asset_ownership buyer s.asset_ownership
                assets with
            | mk tfst tsnd =>
              cases tfst with
              | error e => simp [hto] at h
              | ok own1 =>
                simp only [hto, Except.ok.injEq] at h
                exact ⟨own1, by rw [← h]⟩

/-- No public call ever writes the `owner` storage field (there is no
constructor and no operation whose success state changes it). -/
theorem applyOp_owner (sl : ContractState × Ledger) (op : Op) :
    (applyOp sl op).1.owner = sl.1.owner := by
  cases op with
  | purchaseOp mkt buyer assets currency =>
    simp only [applyOp]
    cases hp : (purchase_multiple_assets sl.1 sl.2 mkt buyer assets
        currency).1 with
    | error e => rfl
    | ok p =>
      obtain ⟨own1, hp1⟩ := purchase_ok_state sl.1 sl.2 mkt buyer assets
        currency p hp
      simp [hp1]
  | registerOp caller asset_id seller price metadata_hash =>
    simp only [applyOp, register_digital_asset]
    cases hao : assert_only_owner sl.1 caller with
    | error e => rfl
    | ok u =>
      cases hr : sl.1.asset_registered asset_id with
      | true => simp [hr]
      | false => simp [hr]
  | setRateOp caller rate =>
    simp only [applyOp, set_commission_rate]
    cases hao : assert_only_owner sl.1 caller with
    | error e => rfl
    | ok u =>
      by_cases hr : rate < 10000
      · simp [hr]
      · simp [hr]
  | addCurrencyOp caller currency =>
    simp only [applyOp, add_supported_currency]
    cases hao : assert_only_owner sl.1 caller with
    | error e => rfl
    | ok u => simp
  | removeCurrencyOp caller currency =>
    simp only [applyOp, remove_supported_currency]
    cases hao : assert_only_owner sl.1 caller with
    | error e => rfl
    | ok u => simp

/-- No public call ever resets a registered flag: once an asset identifier
is registered, it stays registered after any further public call. -/
theorem applyOp_registered_mono (sl : ContractState × Ledger) (op : Op)
    (id : Nat) (h : sl.1.asset_registered id = true) :
    (applyOp sl op).1.asset_registered id = true := by
  cases op with
  | purchaseOp mkt buyer assets currency =>
    simp only [applyOp]
    cases hp : (purchase_multiple_assets sl.1 sl.2 mkt buyer assets
        currency).1 with
    | error e => exact h
    | ok p =>
      obtain ⟨own1, hp1⟩ := purchase_ok_state sl.1 sl.2 mkt buyer assets
        currency p hp
      simp [hp1, h]
  | registerOp caller asset_id seller price metadata_hash =>
    simp only [applyOp, register_digital_asset]
    cases hao : assert_only_owner sl.1 caller with
    | error e => exact h
    | ok u =>
      cases hr : sl.1.asset_registered asset_id with
      | true => simp [hr, h]
      | false =>
        simp only [hr, Bool.false_eq_true, if_false]
        by_cases hid : id = asset_id
        · simp [hid]
        · simp [hid, h]
  | setRateOp caller rate =>
    simp only [applyOp, set_commission_rate]
    cases hao : assert_only_owner sl.1 caller with
    | error e => exact h
    | ok u =>
      by_cases hr : rate < 10000
      · simp [hr, h]
      · simp [hr, h]
  | addCurrencyOp caller currency =>
    simp only [applyOp, add_supported_currency]
    cases hao : assert_only_owner sl.1 caller with
    | error e => exact h
    | ok u => simp [h]
  | removeCurrencyOp caller currency =>
    simp only [applyOp, remove_supported_currency]
    cases hao : assert_only_owner sl.1 caller with
    | error e => exact h
    | ok u => simp [h]

/-- The `owner` storage field is zero in every reachable state. -/
theorem reach_owner_zero (l0 : Ledger) (ops : List Op) :
    (reach l0 ops).1.owner = 0 := by
  suffices hgen : ∀ (ops : List Op) (sl : ContractState × Ledger),
      sl.1.owner = 0 → ((ops.foldl applyOp sl).1).owner = 0 by
    exact hgen ops (initState, l0) rfl
  intro ops
  induction ops with
  | nil => intro sl h; exact h
  | cons op rest ih =>
    intro sl h
    exact ih (applyOp sl op) (by rw [applyOp_owner]; exact h)

/-- Whatever the state, `process_payments` begins with the commission
transfer from the buyer to the `owner` storage field's address (provided
the commission multiplication stays in `u256` range, otherwise the pass
aborts before invoking any transfer). -/
theorem process_payments_head (s : ContractState) (mkt : Nat) (l : Ledger)
    (assets : List DigitalAsset) (total buyer : Nat)
    (h : total * s.commission_rate < U256) :
    (process_payments s mkt l assets total buyer).2.head? =
      some (.transferCall buyer s.owner
        (total * s.commission_rate / 10000)) := by
  simp only [process_payments, checkedMul_of_lt h]
  cases ht : l.transferFrom mkt buyer s.owner
      (total * s.commission_rate / 10000) with
  | none => simp
  | some l1 => simp

/-- Once registered, the flag survives any sequence of public calls. -/
theorem foldl_registered_mono (id : Nat) (ops : List Op) :
    ∀ sl : ContractState × Ledger, sl.1.asset_registered id = true →
      ((ops.foldl applyOp sl).1).asset_registered id = true := by
  induction ops with
  | nil => intro sl h; exact h
  | cons op rest ih =>
    intro sl h
    exact ih _ (applyOp_registered_mono sl op id h)

/-! ## Claim theorems -/

/-- C1: if any step of `purchase_multiple_assets` fails — pause gate,
currency gate, unregistered asset, overflow, any value transfer, or the
ownership re-check — the settlement aborts with an error, and the committed
(caller-visible) state and ledger are exactly the pre-call ones: recorded
owners, registry, policy and all balances are unchanged, with no partial
payment and no partial ownership change. Conversely a success certifies
that every one of those steps succeeded. -/
theorem purchase_failure_reverts (s : ContractState) (l : Ledger)
    (mkt buyer : Nat) (assets : List DigitalAsset) (currency : Nat) :
    (∀ e : Err,
      (purchase_multiple_assets s l mkt buyer assets currency).1 =
          .error e →
      committed s l
          (purchase_multiple_assets s l mkt buyer assets currency) =
        (s, l)) ∧
    (exceptOk (purchase_multiple_assets s l mkt buyer assets currency).1 =
        true →
      s.paused = false ∧ s.supported_currencies currency = true ∧
      calculate_total_price s assets 0 = .ok (sumPrices assets) ∧
      exceptOk
          (process_payments s mkt l assets (sumPrices assets) buyer).1 =
        true ∧
      staleExists s.asset_ownership buyer assets = false) := by
  constructor
  · intro e he
    simp [committed, he]
  · intro h
    obtain ⟨h1, h2, h3, h4, h5, _⟩ :=
      purchase_ok_spec s l mkt buyer assets currency h
    exact ⟨h1, h2, h3, h4, h5⟩

/-- C1 witness: a batch whose second seller payment fails for insufficient
buyer balance aborts with `TransferFailed` and commits nothing, and a fully
funded run of the same batch certifies all steps. -/
theorem purchase_failure_reverts_witness :
    committed cS cLlow (purchase_multiple_assets cS cLlow 2 7 cBatch 9) =
      (cS, cLlow) ∧
    (cS.paused = false ∧ cS.supported_currencies 9 = true ∧
      calculate_total_price cS cBatch 0 = .ok (sumPrices cBatch) ∧
      exceptOk (process_payments cS 2 cL cBatch (sumPrices cBatch) 7).1 =
        true ∧
      staleExists cS.asset_ownership 7 cBatch = false) :=
  ⟨(purchase_failure_reverts cS cLlow 2 7 cBatch 9).1 .TransferFailed rfl,
   (purchase_failure_reverts cS cL 2 7 cBatch 9).2 (by decide)⟩

/-- C4: if any batch item's recorded current owner differs from its
declared seller when the commit pass reaches it (given the earlier stages
went through), the purchase fails `InvalidAssetOwnership` and the committed
state and ledger are the pre-call ones — nothing is transferred from the
wrong party. -/
theorem stale_ownership_aborts (s : ContractState) (l : Ledger)
    (mkt buyer : Nat) (assets : List DigitalAsset) (currency : Nat)
    (total : Nat)
    (hp : s.paused = false) (hc : s.supported_currencies currency = true)
    (hcalc : calculate_total_price s assets 0 = .ok total)
    (hpay : exceptOk (process_payments s mkt l assets total buyer).1 = true)
    (hstale : staleExists s.asset_ownership buyer assets = true) :
    (purchase_multiple_assets s l mkt buyer assets currency).1 =
      .error .InvalidAssetOwnership ∧
    committed s l (purchase_multiple_assets s l mkt buyer assets currency) =
      (s, l) := by
  have hto := (own_stale_iff buyer assets s.asset_ownership).mpr hstale
  have h1 : (purchase_multiple_assets s l mkt buyer assets currency).1 =
      .error .InvalidAssetOwnership := by
    simp only [purchase_multiple_assets, hp, Bool.false_eq_true, if_false,
      hc, Bool.true_eq_false, hcalc]
    cases hpp : process_payments s mkt l assets total buyer with
    | mk pfst psnd =>
      cases pfst with
      | error e => rw [hpp] at hpay; simp [exceptOk] at hpay
      | ok l1 =>
        cases hto2 : transfer_asset_ownership buyer s.asset_ownership
            assets with
        | mk tfst tsnd =>
          rw [hto2] at hto
          cases tfst with
          | error e =>
            simp only [Except.error.injEq] at hto
            simp [hto]
          | ok own1 => cases hto
  exact ⟨h1, by simp [committed, h1]⟩

/-- C4 witness: asset 1's recorded owner was changed to 99 after
registration while the batch still declares seller 11; the purchase fails
`InvalidAssetOwnership` and commits nothing. -/
theorem stale_ownership_aborts_witness :
    (purchase_multiple_assets fS cL 2 7 cBatch 9).1 =
      .error .InvalidAssetOwnership ∧
    committed fS cL (purchase_multiple_assets fS cL 2 7 cBatch 9) =
      (fS, cL) :=
  stale_ownership_aborts fS cL 2 7 cBatch 9 500 (by decide) (by decide)
    (by decide) (by decide) (by decide)

/-- C6: the validation-and-pricing pass (a) on success returns the exact
`Nat` sum of declared prices and certifies every item registered, (b) with
every item registered fails `ArithmeticOverflow` (not wrap-around) whenever
the true sum leaves the `u256` range, and (c) its failure makes the whole
purchase fail with the same error having performed no action at all (no
transfer, no emission, no ownership write — the pass itself only reads the
state, as `calculate_total_price`'s type shows). -/
theorem validation_pass_spec (s : ContractState)
    (assets : List DigitalAsset) :
    (∀ v : Nat, calculate_total_price s assets 0 = .ok v →
      v = sumPrices assets ∧
        ∀ a ∈ assets, s.asset_registered a.asset_id = true) ∧
    ((∀ a ∈ assets, s.asset_registered a.asset_id = true) →
      U256 ≤ sumPrices assets →
      calculate_total_price s assets 0 = .error .ArithmeticOverflow) ∧
    (∀ (e : Err) (l : Ledger) (mkt buyer currency : Nat),
      s.paused = false → s.supported_currencies currency = true →
      calculate_total_price s assets 0 = .error e →
      (purchase_multiple_assets s l mkt buyer assets currency).1 =
          .error e ∧
      (purchase_multiple_assets s l mkt buyer assets currency).2 = []) := by
  refine ⟨?_, ?_, ?_⟩
  · intro v h
    simpa using calc_ok s assets 0 v h
  · intro hreg hsum
    refine calc_overflow s assets 0 hreg ?_ (by omega)
    norm_num [U256]
  · intro e l mkt buyer currency hp hc hcalc
    constructor <;> simp [purchase_multiple_assets, hp, hc, hcalc]

/-- C6 witness: the [100,250,150] batch sums to 500 with all items
registered; two registered items of price 2^255 overflow `u256` and fail
`ArithmeticOverflow`; a batch naming unregistered asset 42 makes the whole
purchase fail `UnregisteredAsset` with an empty action trace. -/
theorem validation_pass_spec_witness :
    (500 = sumPrices cBatch ∧
      ∀ a ∈ cBatch, cS.asset_registered a.asset_id = true) ∧
    calculate_total_price cS oBatch 0 = .error .ArithmeticOverflow ∧
    ((purchase_multiple_assets cS cL 2 7 gBatch 9).1 =
        .error .UnregisteredAsset ∧
      (purchase_multiple_assets cS cL 2 7 gBatch 9).2 = []) :=
  ⟨(validation_pass_spec cS cBatch).1 500 (by decide),
   (validation_pass_spec cS oBatch).2.1 (by decide) (by decide),
   (validation_pass_spec cS gBatch).2.2 .UnregisteredAsset cL 2 7 9
     (by decide) (by decide) (by decide)⟩

/-- C9: with the pause flag set, `purchase_multiple_assets` fails
`SystemPaused` for every batch — including fully valid ones — with an empty
action trace (no funds movement) and no committed change; unpaused but with
an unsupported currency it fails `UnsupportedCurrency` the same way. Both
gates precede any funds movement. -/
theorem purchase_gate_checks (s : ContractState) (l : Ledger)
    (mkt buyer : Nat) (assets : List DigitalAsset) (currency : Nat) :
    (s.paused = true →
      (purchase_multiple_assets s l mkt buyer assets currency).1 =
          .error .SystemPaused ∧
      (purchase_multiple_assets s l mkt buyer assets currency).2 = [] ∧
      committed s l
          (purchase_multiple_assets s l mkt buyer assets currency) =
        (s, l)) ∧
    (s.paused = false → s.supported_currencies currency = false →
      (purchase_multiple_assets s l mkt buyer assets currency).1 =
          .error .UnsupportedCurrency ∧
      (purchase_multiple_assets s l mkt buyer assets currency).2 = [] ∧
      committed s l
          (purchase_multiple_assets s l mkt buyer assets currency) =
        (s, l)) := by
  constructor
  · intro hp
    have h1 : purchase_multiple_assets s l mkt buyer assets currency =
        (.error .SystemPaused, []) := by
      simp [purchase_multiple_assets, hp]
    rw [h1]
    exact ⟨rfl, rfl, rfl⟩
  · intro hp hc
    have h1 : purchase_multiple_assets s l mkt buyer assets currency =
        (.error .UnsupportedCurrency, []) := by
      simp [purchase_multiple_assets, hp, hc]
    rw [h1]
    exact ⟨rfl, rfl, rfl⟩

/-- C9 witness: the fully valid pricing batch fails `SystemPaused` when the
pause flag is set, and fails `UnsupportedCurrency` for the unsupported
currency 8, in both cases with an empty trace and nothing committed. -/
theorem purchase_gate_checks_witness :
    ((purchase_multiple_assets cSpaused cL 2 7 cBatch 9).1 =
        .error .SystemPaused ∧
      (purchase_multiple_assets cSpaused cL 2 7 cBatch 9).2 = [] ∧
      committed cSpaused cL
          (purchase_multiple_assets cSpaused cL 2 7 cBatch 9) =
        (cSpaused, cL)) ∧
    ((purchase_multiple_assets cS cL 2 7 cBatch 8).1 =
        .error .UnsupportedCurrency ∧
      (purchase_multiple_assets cS cL 2 7 cBatch 8).2 = [] ∧
      committed cS cL (purchase_multiple_assets cS cL 2 7 cBatch 8) =
        (cS, cL)) :=
  ⟨(purchase_gate_checks cSpaused cL 2 7 cBatch 9).1 (by decide),
   (purchase_gate_checks cS cL 2 7 cBatch 8).2 (by decide) (by decide)⟩

/-- C7: called by the privileged owner, `set_commission_rate` fails
`InvalidCommissionRate` for every rate ≥ 10000 (and the committed state
keeps the old rate), while every rate ≤ 9999 succeeds and replaces the
stored rate, so `get_commission_rate` then returns it. -/
theorem set_commission_rate_bound (s : ContractState) (l : Ledger)
    (caller rate : Nat) (hc0 : caller ≠ 0)
    (hown : caller = s.ownable_owner) :
    (10000 ≤ rate →
      set_commission_rate s caller rate = .error .InvalidCommissionRate ∧
      (applyOp (s, l) (.setRateOp caller rate)).1.commission_rate =
        s.commission_rate) ∧
    (rate < 10000 →
      set_commission_rate s caller rate =
        .ok { s with commission_rate := rate } ∧
      get_commission_rate { s with commission_rate := rate } = rate) := by
  have hao : assert_only_owner s caller = .ok () := by
    unfold assert_only_owner
    rw [if_pos ⟨hc0, hown⟩]
  constructor
  · intro h
    have hs : set_commission_rate s caller rate =
        .error .InvalidCommissionRate := by
      simp only [set_commission_rate, hao]
      rw [if_neg (by omega)]
    exact ⟨hs, by simp [applyOp, hs]⟩
  · intro h
    refine ⟨?_, rfl⟩
    simp only [set_commission_rate, hao]
    rw [if_pos h]

/-- C7 witness: owner 3 gets `InvalidCommissionRate` at 10000 with the 500
rate untouched, and successfully stores 9999. -/
theorem set_commission_rate_bound_witness :
    (set_commission_rate cS 3 10000 = .error .InvalidCommissionRate ∧
      (applyOp (cS, cL) (.setRateOp 3 10000)).1.commission_rate =
        cS.commission_rate) ∧
    (set_commission_rate cS 3 9999 =
        .ok { cS with commission_rate := 9999 } ∧
      get_commission_rate { cS with commission_rate := 9999 } = 9999) :=
  ⟨(set_commission_rate_bound cS cL 3 10000 (by decide) rfl).1
      (by decide),
   (set_commission_rate_bound cS cL 3 9999 (by decide) rfl).2
      (by decide)⟩

/-- C8: once `register_digital_asset` succeeds for an identifier, the
record holds the registered flag, the metadata hash and the seller as
initial owner; a second (authorized) registration of the same identifier
fails `AssetAlreadyRegistered` (reverting, so the original record stands);
and the registered flag survives any sequence of further public calls
(monotonic true). -/
theorem registration_unique_and_monotonic (s : ContractState)
    (caller asset_id seller price metadata_hash : Nat)
    (s1 : ContractState)
    (hreg : register_digital_asset s caller asset_id seller price
      metadata_hash = .ok s1) :
    s1.asset_registered asset_id = true ∧
    s1.asset_metadata asset_id = metadata_hash ∧
    s1.asset_ownership asset_id = seller ∧
    (∀ c2 sl2 p2 m2 : Nat, c2 ≠ 0 → c2 = s1.ownable_owner →
      register_digital_asset s1 c2 asset_id sl2 p2 m2 =
        .error .AssetAlreadyRegistered) ∧
    (∀ (l : Ledger) (ops : List Op),
      ((ops.foldl applyOp (s1, l)).1).asset_registered asset_id = true) := by
  simp only [register_digital_asset] at hreg
  cases hao : assert_only_owner s caller with
  | error e => rw [hao] at hreg; cases hreg
  | ok u =>
    rw [hao] at hreg
    cases hr : s.asset_registered asset_id with
    | true => rw [hr] at hreg; simp at hreg
    | false =>
      rw [hr] at hreg
      simp only [Bool.false_eq_true, if_false, Except.ok.injEq] at hreg
      subst hreg
      refine ⟨by simp, by simp [updateF], by simp [updateF], ?_, ?_⟩
      · intro c2 sl2 p2 m2 hc2 hc2own
        simp only [register_digital_asset, assert_only_owner]
        rw [if_pos ⟨hc2, hc2own⟩]
        simp
      · intro l ops
        exact foldl_registered_mono asset_id ops _ (by simp)

/-- C8 witness: owner 3 registers asset 50 (metadata 77, seller 21); the
record is as registered, a repeat registration fails
`AssetAlreadyRegistered`, and the flag persists. -/
theorem registration_unique_and_monotonic_witness :
    register_digital_asset cS 3 50 21 10 77 = .ok cS50 ∧
    (cS50.asset_registered 50 = true ∧
      cS50.asset_metadata 50 = 77 ∧
      cS50.asset_ownership 50 = 21 ∧
      (∀ c2 sl2 p2 m2 : Nat, c2 ≠ 0 → c2 = cS50.ownable_owner →
        register_digital_asset cS50 c2 50 sl2 p2 m2 =
          .error .AssetAlreadyRegistered) ∧
      (∀ (l : Ledger) (ops : List Op),
        ((ops.foldl applyOp (cS50, l)).1).asset_registered 50 = true)) :=
  ⟨rfl, registration_unique_and_monotonic cS 3 50 21 10 77 cS50 rfl⟩

/-- C10: no public operation (and there is no constructor) ever writes the
`owner` storage field — the commission recipient, distinct from the Ownable
component's admin — so it is zero in every reachable state, and in every
reachable state the commission transfer `process_payments` issues first is
addressed to the zero address. -/
theorem owner_commission_recipient_zero :
    (∀ (sl : ContractState × Ledger) (op : Op),
      (applyOp sl op).1.owner = sl.1.owner) ∧
    (∀ (l0 : Ledger) (ops : List Op), (reach l0 ops).1.owner = 0) ∧
    (∀ (l0 : Ledger) (ops : List Op) (mkt : Nat) (l : Ledger)
        (assets : List DigitalAsset) (total buyer : Nat),
      total * (reach l0 ops).1.commission_rate < U256 →
      (process_payments (reach l0 ops).1 mkt l assets total
          buyer).2.head? =
        some (.transferCall buyer 0
          (total * (reach l0 ops).1.commission_rate / 10000))) := by
  refine ⟨applyOp_owner, reach_owner_zero, ?_⟩
  intro l0 ops mkt l assets total buyer h
  have hh := process_payments_head (reach l0 ops).1 mkt l assets total
    buyer h
  rw [reach_owner_zero l0 ops] at hh
  exact hh

/-- C10 witness: at the deployment state (empty call history) a settlement
attempt's very first transfer is addressed to the zero address. -/
theorem owner_commission_recipient_zero_witness :
    (process_payments (reach cL []).1 2 cL cBatch 0 7).2.head? =
      some (.transferCall 7 0 0) :=
  owner_commission_recipient_zero.2.2 cL [] 2 cL cBatch 0 7 (by decide)

/-- C5: the batch with prices [100, 250, 150] under the stored 500 bp rate
prices to `total_price = 500` with commission transfer of exactly 25
(= 500*500/10000, floor) and each seller paid exactly their item's declared
price; in general, every successful settlement's first transfer carries
`sumPrices * commission_rate / 10000` (floor division), with the rate read
from the pre-call state once for the whole batch. -/
theorem pricing_commission_floor :
    (calculate_total_price cS cBatch 0 = .ok 500 ∧
      cS.commission_rate = 500 ∧
      transfersOf (purchase_multiple_assets cS cL 2 7 cBatch 9).2 =
        [(7, 4, 25), (7, 11, 100), (7, 12, 250), (7, 13, 150)]) ∧
    (∀ (s : ContractState) (l : Ledger) (mkt buyer : Nat)
        (assets : List DigitalAsset) (currency : Nat),
      exceptOk (purchase_multiple_assets s l mkt buyer assets
          currency).1 = true →
      (transfersOf
          (purchase_multiple_assets s l mkt buyer assets currency).2).head? =
        some (buyer, s.owner,
          sumPrices assets * s.commission_rate / 10000)) := by
  constructor
  · exact ⟨by decide, by decide, by decide⟩
  · intro s l mkt buyer assets currency h
    obtain ⟨_, _, _, _, _, htr⟩ :=
      purchase_ok_spec s l mkt buyer assets currency h
    rw [htr]
    simp [transfersOf]

/-- C5 witness: on the concrete pricing batch the general commission law
instantiates to the 25-token commission transfer. -/
theorem pricing_commission_floor_witness :
    (transfersOf (purchase_multiple_assets cS cL 2 7 cBatch 9).2).head? =
      some (7, 4, 25) :=
  pricing_commission_floor.2 cS cL 2 7 cBatch 9 (by decide)

/-- C2 counterexample: the code pays each item's *declared* seller
(`asset.seller`, lib.cairo line 180), not the registry-recorded owner at
the moment of the transfer. In state `dS` asset 1's recorded owner is 5,
yet the duplicate-id batch `dBatch` settles successfully while its second
item's payment goes to the batch-declared seller 7 — the full trace below
shows that transfer (`transferCall 7 7 20`, the buyer paying itself)
happens before any `ownWrite`, i.e. while the recorded owner is still 5,
and 7 ≠ 5. -/
theorem purchase_pays_declared_seller_cex :
    exceptOk (purchase_multiple_assets dS dL 2 7 dBatch 9).1 = true ∧
    (purchase_multiple_assets dS dL 2 7 dBatch 9).2 =
      [.transferCall 7 0 0,
       .transferCall 7 5 10, .emitPurchased 1 7 5 10,
       .transferCall 7 7 20, .emitPurchased 1 7 7 20,
       .ownCheck 1, .ownWrite 1 7, .ownCheck 1, .ownWrite 1 7] ∧
    dS.asset_ownership 1 = 5 ∧ (7 : Nat) ≠ 5 := by
  refine ⟨by decide, by decide, by decide, by decide⟩

/-- C2 amended: in every successful settlement the value-transfer
capability is invoked exactly once for the commission — buyer to the
privileged-owner treasury field — and then exactly once per batch item,
moving that item's declared price from the buyer to that item's *declared
seller* (the batch-supplied field, which the code uses directly and which
need not equal the registry-recorded owner at transfer time). -/
theorem purchase_transfer_schedule (s : ContractState) (l : Ledger)
    (mkt buyer : Nat) (assets : List DigitalAsset) (currency : Nat)
    (h : exceptOk
      (purchase_multiple_assets s l mkt buyer assets currency).1 = true) :
    transfersOf (purchase_multiple_assets s l mkt buyer assets currency).2 =
      (buyer, s.owner, sumPrices assets * s.commission_rate / 10000) ::
        assets.map (fun a => (buyer, a.seller, a.price)) := by
  obtain ⟨_, _, _, _, _, htr⟩ :=
    purchase_ok_spec s l mkt buyer assets currency h
  rw [htr]
  simp [transfersOf, transfersOf_append, transfersOf_pay, transfersOf_own]

/-- C2 amended witness: the pricing batch settles with exactly the
commission transfer followed by one transfer per item to its declared
seller. -/
theorem purchase_transfer_schedule_witness :
    transfersOf (purchase_multiple_assets cS cL 2 7 cBatch 9).2 =
      (7, cS.owner, sumPrices cBatch * cS.commission_rate / 10000) ::
        cBatch.map (fun a => (7, a.seller, a.price)) :=
  purchase_transfer_schedule cS cL 2 7 cBatch 9 (by decide)

/-- C3 counterexample: the code emits `AssetPurchased` inside the payment
loop (lib.cairo lines 180-190), and the ownership re-check and owner write
happen only afterwards in `transfer_asset_ownership` — so the event is
emitted *before* that item's ownership re-check and owner update, not
after, as this successful single-item settlement shows (its emission for
asset 1 is not preceded by any ownership write for asset 1). -/
theorem emit_before_ownership_commit_cex :
    exceptOk (purchase_multiple_assets dS dL 2 7 eBatch 9).1 = true ∧
    emitAfterWriteB 1 (purchase_multiple_assets dS dL 2 7 eBatch 9).2
        false = false := by
  refine ⟨by decide, by decide⟩

/-- C3 amended: in every successful settlement, each batch item's
`AssetPurchased {asset_id, buyer, seller, price}` event is emitted during
the payment pass, immediately after that item's value transfer; every
ownership re-check and owner update follows the whole payment pass — so
each item's event precedes (rather than follows) its ownership re-check
and owner write, as the trace shape proves. -/
theorem purchase_action_order (s : ContractState) (l : Ledger)
    (mkt buyer : Nat) (assets : List DigitalAsset) (currency : Nat)
    (h : exceptOk
      (purchase_multiple_assets s l mkt buyer assets currency).1 = true) :
    (purchase_multiple_assets s l mkt buyer assets currency).2 =
      .transferCall buyer s.owner
          (sumPrices assets * s.commission_rate / 10000) ::
        (perItemTrace (paymentActions buyer) assets ++
          perItemTrace (ownershipActions buyer) assets) :=
  (purchase_ok_spec s l mkt buyer assets currency h).2.2.2.2.2

/-- C3 amended witness: the pricing batch's trace instantiates the shape —
payment blocks (transfer then emission, per item) followed by the commit
blocks (re-check then write, per item). -/
theorem purchase_action_order_witness :
    (purchase_multiple_assets cS cL 2 7 cBatch 9).2 =
      .transferCall 7 cS.owner
          (sumPrices cBatch * cS.commission_rate / 10000) ::
        (perItemTrace (paymentActions 7) cBatch ++
          perItemTrace (ownershipActions 7) cBatch) :=
  purchase_action_order cS cL 2 7 cBatch 9 (by decide)

end Mediolano
